import Mathlib

/-!
Verification of the SwissCourtRulingCorpus dataset-creation pipeline.

Shallow embedding of the Python sources:
* `scrc/dataset_creation/dataset_creator.py` (filtering, splitting,
  per-court bookkeeping, ruling-citation resolution),
* `spider_specific/section_splitting_functions.py` (the forward-only
  section state machine of the `CH_BGer` splitter),
* `scrc/preprocessors/extractors/pattern_extractor.py` (candidate
  filtering and the per-court processing cap),
* `scrc/utils/decorators.py` (the error-swallowing `slack_alert` wrapper).

Machine integers are modelled as `Nat`/`Int` (Python integers are
unbounded), dataframes/datasets as lists of rows, dictionaries as
association lists, and raising code as `Except`/`Option` values.
-/

/-! ### String helpers

Python's `needle in hay` substring test, modelled over the character
lists of the strings. -/

/-- `startsList pre l` is true when `pre` is an initial segment of `l`. -/
def startsList : List Char → List Char → Bool
  | [], _ => true
  | _ :: _, [] => false
  | a :: as, b :: bs => a = b && startsList as bs

/-- `containsSub needle hay` is true when `needle` occurs contiguously in `hay`. -/
def containsSub (needle : List Char) : List Char → Bool
  | [] => startsList needle []
  | b :: bs => startsList needle (b :: bs) || containsSub needle bs

/-- Python's `needle in hay` on strings. -/
def strContains (needle hay : String) : Bool :=
  containsSub needle.toList hay.toList

/-! ### C1: `DatasetCreator.filter_by_length` and the filter step of
`DatasetCreator.save_dataset` (dataset_creator.py lines 621-675).

An example row is modelled by its BERT token counts, a function from
feature-column name to the value of `{feature_col}_num_tokens_bert`;
the configured feature columns are a list of column names. -/

/-- `DatasetCreator.filter_by_length` (dataset_creator.py lines 660-675):
counts the feature columns whose BERT token count is strictly greater
than `minFeatureColLength`; under `how='all'` the example is kept iff
all feature columns are long enough, under `how='any'` iff at least one
is.  Any other `how` falls off the end of the Python function and
returns `None`, modelled as `none`. -/
def filter_by_length (minFeatureColLength : Nat) (feature_cols : List String)
    (ex : String → Nat) (how : String) : Option Bool :=
  let keep_counter := (feature_cols.filter (fun c => decide (minFeatureColLength < ex c))).length
  if how = "all" then some (decide (keep_counter = feature_cols.length))
  else if how = "any" then some (decide (0 < keep_counter))
  else none

/-- The first step of `DatasetCreator.save_dataset` (dataset_creator.py
line 635): `dataset.filter(self.filter_by_length, fn_kwargs={"how": 'all'})`.
A `None` predicate result counts as falsy, i.e. the row is dropped. -/
def save_dataset_filter (minFeatureColLength : Nat) (feature_cols : List String)
    (dataset : List (String → Nat)) : List (String → Nat) :=
  dataset.filter (fun ex => (filter_by_length minFeatureColLength feature_cols ex "all").getD false)

/-- The two feature columns used in the claim's concrete examples. -/
def exCols : List String := ["facts", "considerations"]

/-- Example row with BERT token counts {facts: 5, considerations: 15}. -/
def exShort : String → Nat := fun c => if c = "facts" then 5 else 15

/-- Example row with BERT token counts {facts: 12, considerations: 20}. -/
def exLong : String → Nat := fun c => if c = "facts" then 12 else 20

theorem filter_length_eq_length_iff (p : String → Bool) :
    ∀ cols : List String, ((cols.filter p).length = cols.length ↔ ∀ c ∈ cols, p c = true)
  | [] => by simp
  | c :: cols => by
    by_cases h : p c
    · simp [List.filter_cons, h, filter_length_eq_length_iff p cols]
    · simp only [List.filter_cons, h, if_neg]
      constructor
      · intro hlen
        exact absurd hlen (Nat.ne_of_lt (Nat.lt_succ_of_le (List.length_filter_le p cols)))
      · intro hall
        exact absurd (hall c (by simp)) (by simpa using h)

theorem filter_by_length_all_getD (m : Nat) (cols : List String) (ex : String → Nat) :
    ((filter_by_length m cols ex "all").getD false = true ↔ ∀ c ∈ cols, m < ex c) := by
  have h1 : filter_by_length m cols ex "all"
      = some (decide ((cols.filter (fun c => decide (m < ex c))).length = cols.length)) := rfl
  rw [h1, Option.getD_some, decide_eq_true_eq, filter_length_eq_length_iff]
  simp

/-- C1 counterexample: with `minFeatureColLength = 10` and feature columns
`{facts, considerations}`, the example with BERT token counts {5, 15}
has a sufficiently long column (15 is not below 10), so the claim says
`save_dataset` keeps it; the code's filter (which uses `how='all'`)
drops it. -/
theorem C1_counterexample :
    save_dataset_filter 10 exCols [exShort] = []
    ∧ ¬ (∀ c ∈ exCols, exShort c < 10) := by
  constructor
  · exact List.length_eq_zero.mp (by decide)
  · decide

/-- C1 (amended): `save_dataset` filters with `how='all'`, so an example
is kept iff every configured feature column's BERT token count is
strictly greater than `minFeatureColLength` (dropped iff at least one
column is too short).  `filter_by_length` itself, with
`minFeatureColLength = 10` and two feature columns, keeps an example
with BERT token counts {5, 15} under `how='any'` and drops it under
`how='all'`, and keeps one with {12, 20} under both modes. -/
theorem C1_save_dataset_filter_amended :
    (∀ (m : Nat) (cols : List String) (ds : List (String → Nat)) (ex : String → Nat),
      ex ∈ save_dataset_filter m cols ds ↔ ex ∈ ds ∧ ∀ c ∈ cols, m < ex c)
    ∧ filter_by_length 10 exCols exShort "any" = some true
    ∧ filter_by_length 10 exCols exShort "all" = some false
    ∧ filter_by_length 10 exCols exLong "any" = some true
    ∧ filter_by_length 10 exCols exLong "all" = some true := by
  refine ⟨fun m cols ds ex => ?_, by decide, by decide, by decide, by decide⟩
  rw [save_dataset_filter, List.mem_filter, filter_by_length_all_getD]

/-! ### C2: `DatasetCreator.split_date_stratified`
(dataset_creator.py lines 864-881). -/

/-- A dataset row as seen by the split filters: only its `year` field
matters (`lambda x: x["year"] in range(a, b)`). -/
structure Decision where
  year : Int
deriving DecidableEq, Repr

/-- The per-split start years configured in `DatasetCreator.__init__`
(dataset_creator.py lines 163-164). -/
structure StartYears where
  train : Int
  validation : Int
  test : Int
  secret_test : Int

/-- Python's `x in range(a, b)` for integers: `a ≤ x < b`. -/
def inPyRange (x a b : Int) : Bool := decide (a ≤ x) && decide (x < b)

/-- `DatasetCreator.split_date_stratified` (dataset_creator.py lines
864-881): four `dataset.filter` calls over half-open year ranges
`[train, validation)`, `[validation, test)`, `[test, secret_test)` and
`[secret_test, current_year + 1)`. -/
def split_date_stratified (current_year : Int) (start_years : StartYears)
    (dataset : List Decision) :
    List Decision × List Decision × List Decision × List Decision :=
  (dataset.filter (fun x => inPyRange x.year start_years.train start_years.validation),
   dataset.filter (fun x => inPyRange x.year start_years.validation start_years.test),
   dataset.filter (fun x => inPyRange x.year start_years.test start_years.secret_test),
   dataset.filter (fun x => inPyRange x.year start_years.secret_test (current_year + 1)))

/-- The concrete start years of the claim (the constructor defaults). -/
def defaultStartYears : StartYears := ⟨2002, 2016, 2018, 2020⟩

/-- C2: with start years {train: 2002, validation: 2016, test: 2018,
secret_test: 2020} and current year ≥ 2021, a decision lands in train
iff its year is 2002..2015, in validation iff 2016..2017, in test iff
2018..2019, in secret_test iff 2020..current_year, and a decision dated
2001 lands in none of the four splits. -/
theorem C2_split_date_stratified (current_year : Int) (_h : 2021 ≤ current_year)
    (dataset : List Decision) (d : Decision) :
    (d ∈ (split_date_stratified current_year defaultStartYears dataset).1
      ↔ d ∈ dataset ∧ 2002 ≤ d.year ∧ d.year ≤ 2015)
    ∧ (d ∈ (split_date_stratified current_year defaultStartYears dataset).2.1
      ↔ d ∈ dataset ∧ (d.year = 2016 ∨ d.year = 2017))
    ∧ (d ∈ (split_date_stratified current_year defaultStartYears dataset).2.2.1
      ↔ d ∈ dataset ∧ (d.year = 2018 ∨ d.year = 2019))
    ∧ (d ∈ (split_date_stratified current_year defaultStartYears dataset).2.2.2
      ↔ d ∈ dataset ∧ 2020 ≤ d.year ∧ d.year ≤ current_year)
    ∧ (d.year = 2001 →
        d ∉ (split_date_stratified current_year defaultStartYears dataset).1
        ∧ d ∉ (split_date_stratified current_year defaultStartYears dataset).2.1
        ∧ d ∉ (split_date_stratified current_year defaultStartYears dataset).2.2.1
        ∧ d ∉ (split_date_stratified current_year defaultStartYears dataset).2.2.2) := by
  simp only [split_date_stratified, defaultStartYears, List.mem_filter, inPyRange,
    Bool.and_eq_true, decide_eq_true_eq]
  have hmem : ∀ P Q : Prop, (P ↔ Q) → ((d ∈ dataset ∧ P) ↔ (d ∈ dataset ∧ Q)) :=
    fun P Q hpq => and_congr_right fun _ => hpq
  refine ⟨hmem _ _ (by omega), hmem _ _ (by omega), hmem _ _ (by omega), hmem _ _ (by omega),
    fun hy => ?_⟩
  refine ⟨?_, ?_, ?_, ?_⟩ <;> rintro ⟨-, hr⟩ <;> omega

/-- C2 witness: with current year 2021, a decision dated 2016 lands in
the validation split. -/
theorem C2_witness :
    (⟨2016⟩ : Decision) ∈ (split_date_stratified 2021 defaultStartYears [⟨2016⟩]).2.1
    ∧ (⟨2016⟩ : Decision) ∉ (split_date_stratified 2021 defaultStartYears [⟨2016⟩]).1 := by
  have h := C2_split_date_stratified 2021 (by decide) [⟨2016⟩] ⟨2016⟩
  constructor
  · exact h.2.1.mpr ⟨by decide, Or.inl rfl⟩
  · intro hmem
    have hle : (2016 : Int) ≤ 2015 := (h.1.mp hmem).2.2
    exact absurd hle (by decide)

/-! ### C6: the per-court bookkeeping loop of `DatasetCreator.create_dataset`
(dataset_creator.py lines 282-339).

`prepare_dataset` is the subclass hook returning `(dataset, labels)` for
one court; the dataset is modelled as a list of rows of type `α`, the
labels as an opaque value of type `β`.  The loop body appends the court
to `not_created` when `len(dataset) <= 1`, otherwise buffers the dataset
(concatenate mode, remembering the first court's labels) or records a
per-court save, and appends the court to `created`. -/

/-- The mutable state of the `create_dataset` loop: the `not_created` and
`created` court lists, the `datasets_list` buffer (concatenate mode),
the per-court saves performed by `save_dataset` (non-concatenate mode),
and `label_concat`. -/
structure CreateResult (α β : Type) where
  not_created : List String
  created : List String
  datasets_list : List (List α)
  saved : List (String × List α)
  label_concat : Option β
deriving Repr

/-- The loop state before the first iteration:
`not_created, created = [], []`, `datasets_list = []`, `label_concat = None`. -/
def CreateResult.init {α β : Type} : CreateResult α β := ⟨[], [], [], [], none⟩

/-- The body of the `for court_string in tqdm(court_list)` loop of
`DatasetCreator.create_dataset` (dataset_creator.py lines 299-317),
iterated over the remaining court list. -/
def create_dataset_go {α β : Type} (prepare : String → List α × β) (concatenate : Bool) :
    CreateResult α β → List String → CreateResult α β
  | acc, [] => acc
  | acc, court :: rest =>
    if (prepare court).1.length ≤ 1 then
      create_dataset_go prepare concatenate
        { acc with not_created := acc.not_created ++ [court] } rest
    else if concatenate then
      create_dataset_go prepare concatenate
        { acc with datasets_list := acc.datasets_list ++ [(prepare court).1],
                   label_concat := some (acc.label_concat.getD (prepare court).2),
                   created := acc.created ++ [court] } rest
    else
      create_dataset_go prepare concatenate
        { acc with saved := acc.saved ++ [(court, (prepare court).1)],
                   created := acc.created ++ [court] } rest

/-- `DatasetCreator.create_dataset`'s per-court loop run from the empty
initial state. -/
def create_dataset {α β : Type} (prepare : String → List α × β) (concatenate : Bool)
    (court_list : List String) : CreateResult α β :=
  create_dataset_go prepare concatenate CreateResult.init court_list

theorem create_dataset_go_fields {α β : Type} (prepare : String → List α × β)
    (concatenate : Bool) :
    ∀ (courts : List String) (acc : CreateResult α β),
      (create_dataset_go prepare concatenate acc courts).not_created
          = acc.not_created ++ courts.filter (fun c => decide ((prepare c).1.length ≤ 1))
      ∧ (create_dataset_go prepare concatenate acc courts).created
          = acc.created ++ courts.filter (fun c => decide (1 < (prepare c).1.length))
      ∧ (create_dataset_go prepare concatenate acc courts).datasets_list
          = acc.datasets_list ++ (if concatenate then
              (courts.filter (fun c => decide (1 < (prepare c).1.length))).map
                (fun c => (prepare c).1) else [])
      ∧ (create_dataset_go prepare concatenate acc courts).saved
          = acc.saved ++ (if concatenate then [] else
              (courts.filter (fun c => decide (1 < (prepare c).1.length))).map
                (fun c => (c, (prepare c).1)))
  | [], acc => by simp [create_dataset_go]
  | court :: rest, acc => by
    have ih := create_dataset_go_fields prepare concatenate rest
    by_cases h : (prepare court).1.length ≤ 1
    · have hlt : ¬ (1 < (prepare court).1.length) := by omega
      simp only [create_dataset_go, if_pos h]
      rcases ih _ with ⟨h1, h2, h3, h4⟩
      rw [h1, h2, h3, h4]
      simp [List.filter_cons, h, hlt]
    · have hlt : 1 < (prepare court).1.length := by omega
      by_cases hc : concatenate
      · simp only [create_dataset_go, if_neg h, if_pos hc]
        rcases ih _ with ⟨h1, h2, h3, h4⟩
        rw [h1, h2, h3, h4]
        simp [List.filter_cons, h, hlt, hc]
      · simp only [create_dataset_go, if_neg h, if_neg hc]
        rcases ih _ with ⟨h1, h2, h3, h4⟩
        rw [h1, h2, h3, h4]
        simp [List.filter_cons, h, hlt, hc]

/-- The one-court preparation step used by the C6 counterexample: every
court's prepared dataset is the single-row dataset `[7]`. -/
def prepOne : String → List Nat × Unit := fun _ => ([7], ())

/-- C6 counterexample: a court whose prepared dataset has exactly one row
(so it is not empty) is still appended to the not-created list, because
the code tests `len(dataset) <= 1`, not emptiness. -/
theorem C6_counterexample :
    (create_dataset prepOne false ["A"]).not_created = ["A"]
    ∧ ([7] : List Nat) ≠ [] := by
  exact ⟨rfl, by decide⟩

/-- C6 (amended): `create_dataset` records a court as not created exactly
when the prepared dataset has at most one row (`len(dataset) <= 1`);
every court whose dataset has at least two rows is appended to the
created list and is either buffered for the final concatenation
(concatenate mode) or saved per court (otherwise). -/
theorem C6_create_dataset_amended {α β : Type} (prepare : String → List α × β)
    (concatenate : Bool) (court_list : List String) :
    (create_dataset prepare concatenate court_list).not_created
        = court_list.filter (fun c => decide ((prepare c).1.length ≤ 1))
    ∧ (create_dataset prepare concatenate court_list).created
        = court_list.filter (fun c => decide (1 < (prepare c).1.length))
    ∧ (create_dataset prepare concatenate court_list).datasets_list
        = (if concatenate then
            (court_list.filter (fun c => decide (1 < (prepare c).1.length))).map
              (fun c => (prepare c).1) else [])
    ∧ (create_dataset prepare concatenate court_list).saved
        = (if concatenate then [] else
            (court_list.filter (fun c => decide (1 < (prepare c).1.length))).map
              (fun c => (c, (prepare c).1))) := by
  have h := create_dataset_go_fields prepare concatenate court_list CreateResult.init
  simpa [create_dataset, CreateResult.init] using h

/-! ### C7: candidate filtering in `PatternExtractor.analyze_structure`
and `PatternExtractor.check_existance` (pattern_extractor.py lines
145-158 and 181-187).

Paragraphs are strings (`item is not None` always holds in the model);
the per-language counting dictionary is an association list from keyword
to its `totalcount` (the `example` field of the Python dict entry is
inessential and omitted). -/

/-- Python's `list(dict.fromkeys(paragraphs))`: drop duplicates, keeping
the first occurrence of each paragraph in order (`seen` accumulates the
keys already kept). -/
def dedupKeys (seen : List String) : List String → List String
  | [] => []
  | p :: rest => if p ∈ seen then dedupKeys seen rest else p :: dedupKeys (p :: seen) rest

/-- `re.sub('^=+', '', item)`: strip a leading run of `=` characters. -/
def strip_leading_eq (s : String) : String :=
  String.mk (s.data.dropWhile (fun ch => ch == '='))

/-- `PatternExtractor.check_existance` (pattern_extractor.py lines
181-187): strip leading `=`s, then increment the keyword's `totalcount`
if present, else insert it with `totalcount = 1`. -/
def check_existance (counts : List (String × Nat)) (item : String) : List (String × Nat) :=
  let item2 := strip_leading_eq item
  if counts.any (fun kv => kv.1 == item2) then
    counts.map (fun kv => if kv.1 == item2 then (kv.1, kv.2 + 1) else kv)
  else counts ++ [(item2, 1)]

/-- The counting core of `PatternExtractor.analyze_structure`
(pattern_extractor.py lines 145-158): deduplicate the decision's
paragraphs, then pass every paragraph whose length is strictly between 4
and 80 to `check_existance`. -/
def analyze_structure_counts (counts : List (String × Nat)) (paragraphs : List String) :
    List (String × Nat) :=
  (dedupKeys [] paragraphs).foldl
    (fun acc item => if 4 < item.length ∧ item.length < 80 then check_existance acc item else acc)
    counts

/-- C7: a paragraph is counted iff its length is strictly between 4 and
80 characters; a 3-character and an 81-character paragraph are excluded,
a 10-character paragraph is included, and a paragraph occurring twice in
one decision is counted once for that decision (duplicates are removed
before counting). -/
theorem C7_candidate_filter :
    (∀ (counts : List (String × Nat)) (p : String),
        analyze_structure_counts counts [p, p] = analyze_structure_counts counts [p])
    ∧ (∀ p : String, analyze_structure_counts [] [p]
        = if 4 < p.length ∧ p.length < 80 then [(strip_leading_eq p, 1)] else [])
    ∧ analyze_structure_counts [] ["abc"] = []
    ∧ analyze_structure_counts [] [String.mk (List.replicate 81 'a')] = []
    ∧ analyze_structure_counts [] ["abcdefghij"] = [("abcdefghij", 1)]
    ∧ analyze_structure_counts [] ["abcdefghij", "abcdefghij"] = [("abcdefghij", 1)] := by
  refine ⟨fun counts p => ?_, fun p => ?_, by decide, by decide, by decide, by decide⟩
  · have hd : dedupKeys [] [p, p] = dedupKeys [] [p] := by simp [dedupKeys]
    rw [analyze_structure_counts, analyze_structure_counts, hd]
  · by_cases hp : 4 < p.length ∧ p.length < 80 <;>
      simp [analyze_structure_counts, dedupKeys, check_existance, hp]

/-! ### C8: the processing cap in `PatternExtractor.start_progress`
(pattern_extractor.py lines 88-96).

The first command-line value `sys.argv[1]` is modelled as the integer it
parses to (`int(sys.argv[1])`), so the guard `sys.argv[1] != "0"` is the
guard `argv1 ≠ 0`.  Python's `round(x, -3)` rounds to the nearest
multiple of 1000, ties to the even multiple. -/

/-- Python's `round(x, -3)` on an integer: nearest multiple of 1000,
ties going to the even thousand.  (`/` and `%` on `Int` are floor
division and the nonnegative remainder, matching Python.) -/
def round_half_even_thousand (x : Int) : Int :=
  if x % 1000 < 500 then (x / 1000) * 1000
  else if 500 < x % 1000 then (x / 1000 + 1) * 1000
  else if (x / 1000) % 2 = 0 then (x / 1000) * 1000 else (x / 1000 + 1) * 1000

/-- `PatternExtractor.start_progress` (pattern_extractor.py lines 88-96):
the effective `total_to_process` computed from the command-line cap and
the true per-court total. -/
def start_progress_total (argv1 : Int) (true_total : Int) : Int :=
  if argv1 ≠ 0 then
    if argv1 < 1000 ∧ 1000 < true_total then 1000
    else if 1000 < true_total then round_half_even_thousand argv1
    else true_total
  else true_total

/-- C8 counterexample: with cap 500 and true total 2000 the effective
total is 1000, not the "honored" cap value 500; with cap 2500 and true
total 2000 the effective total is 2000 (Python `round` ties to even),
which is smaller than the cap — contradicting "never yields a smaller
effective total than the cap itself". -/
theorem C8_counterexample :
    start_progress_total 500 2000 = 1000 ∧ (1000 : Int) ≠ 500
    ∧ start_progress_total 2500 2000 = 2000 ∧ (2000 : Int) < 2500 := by
  exact ⟨by decide, by decide, by decide, by decide⟩

/-- C8 (amended): a cap of 0 leaves the true total unchanged; a nonzero
cap below 1000 with true total above 1000 yields exactly 1000 (the cap
value itself is not used); a nonzero cap of at least 1000 with true
total above 1000 yields the cap rounded to the *nearest* thousand with
ties to even (which can be smaller than the cap); a true total of at
most 1000 is never modified.  The rounded value is always a multiple of
1000 within 500 of the cap. -/
theorem C8_start_progress_amended (argv1 true_total : Int) :
    (start_progress_total 0 true_total = true_total)
    ∧ (argv1 ≠ 0 → argv1 < 1000 → 1000 < true_total →
        start_progress_total argv1 true_total = 1000)
    ∧ (argv1 ≠ 0 → 1000 ≤ argv1 → 1000 < true_total →
        start_progress_total argv1 true_total = round_half_even_thousand argv1)
    ∧ (true_total ≤ 1000 → start_progress_total argv1 true_total = true_total)
    ∧ (∃ k : Int, round_half_even_thousand argv1 = 1000 * k
        ∧ (argv1 - 1000 * k).natAbs ≤ 500) := by
  refine ⟨by simp [start_progress_total], fun h0 h1 h2 => ?_, fun h0 h1 h2 => ?_,
    fun h3 => ?_, ?_⟩
  · have hand : argv1 < 1000 ∧ 1000 < true_total := ⟨h1, h2⟩
    unfold start_progress_total
    rw [if_pos h0, if_pos hand]
  · have hne : ¬ (argv1 < 1000 ∧ 1000 < true_total) := by omega
    unfold start_progress_total
    rw [if_pos h0, if_neg hne, if_pos h2]
  · have hn : ¬ (1000 < true_total) := by omega
    have hne : ¬ (argv1 < 1000 ∧ 1000 < true_total) := by omega
    by_cases h0 : argv1 = 0
    · simp [start_progress_total, h0]
    · unfold start_progress_total
      rw [if_pos h0, if_neg hne, if_neg hn]
  · by_cases h1 : argv1 % 1000 < 500
    · refine ⟨argv1 / 1000, ?_, by omega⟩
      simp only [round_half_even_thousand, if_pos h1]; ring
    · by_cases h2 : 500 < argv1 % 1000
      · refine ⟨argv1 / 1000 + 1, ?_, by omega⟩
        simp only [round_half_even_thousand, if_neg h1, if_pos h2]; ring
      · by_cases h3 : (argv1 / 1000) % 2 = 0
        · refine ⟨argv1 / 1000, ?_, by omega⟩
          simp only [round_half_even_thousand, if_neg h1, if_neg h2, if_pos h3]; ring
        · refine ⟨argv1 / 1000 + 1, ?_, by omega⟩
          simp only [round_half_even_thousand, if_neg h1, if_neg h2, if_neg h3]; ring

/-- C8 witness: the amended branches evaluated at concrete inputs — cap
500 with total 2000 gives 1000; cap 1400 with total 2000 gives
`round(1400, -3) = 1000`; cap 7 with total 900 leaves 900. -/
theorem C8_witness :
    start_progress_total 500 2000 = 1000
    ∧ start_progress_total 1400 2000 = round_half_even_thousand 1400
    ∧ round_half_even_thousand 1400 = 1000
    ∧ start_progress_total 7 900 = 900 := by
  have h1 := (C8_start_progress_amended 500 2000).2.1 (by decide) (by decide) (by decide)
  have h2 := (C8_start_progress_amended 1400 2000).2.2.1 (by decide) (by decide) (by decide)
  have h4 := (C8_start_progress_amended 7 900).2.2.2.1 (by decide)
  exact ⟨h1, h2, by decide, h4⟩

/-! ### C9: the `slack_alert` decorator (decorators.py lines 19-34).

The wrapped Python callable either returns a value or raises; it is
modelled as `Unit → Except String β`, the raised exception standing for
its formatted traceback text.  The wrapper's observable behaviour is the
list of messages posted to the chat channel and the value returned to
the caller (`none` models Python's implicit `None` after the bare
`except:` branch). -/

/-- What a `slack_alert`-wrapped call produces: the chat messages posted
and the value the caller receives. -/
structure SlackOutcome (β : Type) where
  posted : List String
  ret : Option β
deriving Repr

/-- The success notification
`f"Your task finished fine: {func.__name__}({signature})"`. -/
def finished_message (fname signature_str : String) : String :=
  "Your task finished fine: " ++ fname ++ "(" ++ signature_str ++ ")"

/-- The failure notification
`f"Something went wrong with our task: {func.__name__}({signature})\n{traceback_msg}"`. -/
def failure_message (fname signature_str traceback_msg : String) : String :=
  "Something went wrong with our task: " ++ fname ++ "(" ++ signature_str ++ ")\n"
    ++ traceback_msg

/-- `slack_alert` (decorators.py lines 19-34): call the wrapped function;
on success post the finished notification and return its value; on any
exception post the failure notification (arguments and traceback) and
fall off the end of the wrapper, returning `None`. -/
def slack_alert {β : Type} (fname signature_str : String)
    (func : Unit → Except String β) : SlackOutcome β :=
  match func () with
  | .ok value => { posted := [finished_message fname signature_str], ret := some value }
  | .error traceback_msg =>
      { posted := [failure_message fname signature_str traceback_msg], ret := none }

theorem startsList_append (xs ys : List Char) : startsList xs (xs ++ ys) = true := by
  induction xs with
  | nil => simp [startsList]
  | cons a as ih => simp [startsList, ih]

theorem containsSub_append_left (needle post : List Char) :
    containsSub needle (needle ++ post) = true := by
  cases needle with
  | nil => cases post <;> simp [containsSub, startsList]
  | cons a as =>
    have h : startsList (a :: as) (a :: (as ++ post)) = true := startsList_append (a :: as) post
    simp [containsSub, h]

theorem containsSub_append_right (needle pre hay : List Char)
    (h : containsSub needle hay = true) : containsSub needle (pre ++ hay) = true := by
  induction pre with
  | nil => simpa using h
  | cons a as ih => simp [containsSub, ih]

/-- C9: the wrapper never lets an exception escape.  On success it
returns the wrapped call's value after posting the finished
notification; on failure it posts the failure notification — which
contains the rendered arguments and the traceback — swallows the
exception and returns `none` to the caller. -/
theorem C9_slack_alert (β : Type) (fname signature_str : String)
    (func : Unit → Except String β) :
    (∀ value : β, func () = .ok value →
      slack_alert fname signature_str func
        = { posted := [finished_message fname signature_str], ret := some value })
    ∧ (∀ traceback_msg : String, func () = .error traceback_msg →
      (slack_alert fname signature_str func).ret = none
      ∧ (slack_alert fname signature_str func).posted
          = [failure_message fname signature_str traceback_msg]
      ∧ strContains signature_str (failure_message fname signature_str traceback_msg) = true
      ∧ strContains traceback_msg (failure_message fname signature_str traceback_msg) = true) := by
  constructor
  · intro value h
    simp [slack_alert, h]
  · intro traceback_msg h
    have hdata : (failure_message fname signature_str traceback_msg).toList
        = ("Something went wrong with our task: ".toList ++ fname.toList ++ "(".toList
            ++ signature_str.toList ++ ")\n".toList ++ traceback_msg.toList) := by
      simp [failure_message, String.toList, String.data_append]
    refine ⟨by simp [slack_alert, h], by simp [slack_alert, h], ?_, ?_⟩
    · rw [strContains, hdata]
      have h1 : containsSub signature_str.toList
          (signature_str.toList ++ (")\n".toList ++ traceback_msg.toList)) = true :=
        containsSub_append_left _ _
      have h2 := containsSub_append_right signature_str.toList "(".toList _ h1
      have h3 := containsSub_append_right signature_str.toList fname.toList _ h2
      have h4 := containsSub_append_right signature_str.toList
        "Something went wrong with our task: ".toList _ h3
      simpa [List.append_assoc] using h4
    · rw [strContains, hdata]
      have h1 : containsSub traceback_msg.toList (traceback_msg.toList ++ []) = true :=
        containsSub_append_left _ _
      rw [List.append_nil] at h1
      have h2 := containsSub_append_right traceback_msg.toList ")\n".toList _ h1
      have h3 := containsSub_append_right traceback_msg.toList signature_str.toList _ h2
      have h4 := containsSub_append_right traceback_msg.toList "(".toList _ h3
      have h5 := containsSub_append_right traceback_msg.toList fname.toList _ h4
      have h6 := containsSub_append_right traceback_msg.toList
        "Something went wrong with our task: ".toList _ h5
      simpa [List.append_assoc] using h6

/-- C9 witness: a wrapped call that raises yields `none` and posts the
failure notification; a wrapped call that returns 5 yields 5 and posts
the finished notification. -/
theorem C9_witness :
    (slack_alert "job" "1, 2" (fun _ => (.error "boom" : Except String Nat))).ret = none
    ∧ (slack_alert "job" "1, 2" (fun _ => (.error "boom" : Except String Nat))).posted
        = [failure_message "job" "1, 2" "boom"]
    ∧ slack_alert "job" "1, 2" (fun _ => (.ok 5 : Except String Nat))
        = { posted := [finished_message "job" "1, 2"], ret := some 5 } := by
  have h1 := (C9_slack_alert Nat "job" "1, 2" (fun _ => .error "boom")).2 "boom" rfl
  have h2 := (C9_slack_alert Nat "job" "1, 2" (fun _ => .ok 5)).1 5 rfl
  exact ⟨h1.1, h1.2.1, h2⟩

/-! ### C4 and C5: the CH_BGer section state machine
(section_splitting_functions.py lines 73-104).

The regex engine (`re.search`, an external library) is modelled as an
abstract matching predicate `ms : marker → paragraph → Bool` (the NFC
normalisation of the paragraph is folded into it); the `section_markers`
dict is a function from section name to its marker list (`[]` for
`header`, which has no markers). -/

/-- Modelled from the spec: the ordered section sequence `sections`
imported from `scrc.dataset_construction.section_splitter` (that module
is not under src/); spec §4.7 fixes the cursor's ordered sequence as
{header, facts, considerations, rulings, footer}. -/
def sections : List String := ["header", "facts", "considerations", "rulings", "footer"]

/-- A section's position in the ordered sequence (`sections.index(...)`). -/
def section_rank (s : String) : Nat := sections.indexOf s

/-- `update_section` (section_splitting_functions.py lines 93-104): at
`footer` stay put; otherwise scan the markers of every section strictly
after the cursor, in order, and move to the first section with a
matching marker, staying put if none matches. -/
def update_section (ms : String → String → Bool) (markers : String → List String)
    (current_section paragraph : String) : String :=
  if current_section = "footer" then current_section
  else
    ((sections.drop (sections.indexOf current_section + 1)).find?
        (fun next_sec => (markers next_sec).any (fun marker => ms marker paragraph))).getD
      current_section

/-- The paragraph loop of `associate_sections`
(section_splitting_functions.py lines 76-85): carries the cursor, the
per-section accumulated text (an association list over `sections`) and
the per-paragraph `{text, section}` records. -/
def associate_go (ms : String → String → Bool) (markers : String → List String) :
    String → List (String × String) → List (String × String) → List String →
      String × List (String × String) × List (String × String)
  | current, section_data, paragraph_data, [] => (current, section_data, paragraph_data)
  | current, section_data, paragraph_data, paragraph :: rest =>
    associate_go ms markers (update_section ms markers current paragraph)
      (section_data.map (fun kv =>
        if kv.1 = update_section ms markers current paragraph
        then (kv.1, kv.2 ++ paragraph ++ " ") else kv))
      (paragraph_data ++ [(paragraph, update_section ms markers current paragraph)]) rest

/-- The structural-integrity error message of `associate_sections`
(section_splitting_functions.py lines 88-89). -/
def stuck_message (current_section html_url : String) : String :=
  "We got stuck at section " ++ current_section ++ ". Please check! "
    ++ "Here you have the url to the decision: " ++ html_url

/-- `associate_sections` (section_splitting_functions.py lines 73-91):
run the paragraph loop from the `header` cursor and empty accumulators;
if the cursor did not reach `footer`, raise `ValueError` with the stuck
message (modelled as `.error`), else return the section texts and the
annotated paragraphs. -/
def associate_sections (ms : String → String → Bool) (markers : String → List String)
    (html_url : String) (paragraphs : List String) :
    Except String (List (String × String) × List (String × String)) :=
  if (associate_go ms markers "header" (sections.map (fun s => (s, ""))) [] paragraphs).1
      ≠ "footer" then
    .error (stuck_message
      (associate_go ms markers "header" (sections.map (fun s => (s, ""))) [] paragraphs).1
      html_url)
  else
    .ok ((associate_go ms markers "header" (sections.map (fun s => (s, ""))) [] paragraphs).2.1,
         (associate_go ms markers "header" (sections.map (fun s => (s, ""))) [] paragraphs).2.2)

/-- The cursor after the whole paragraph sequence has been processed. -/
def final_section (ms : String → String → Bool) (markers : String → List String)
    (paragraphs : List String) : String :=
  (associate_go ms markers "header" (sections.map (fun s => (s, ""))) [] paragraphs).1

theorem update_section_footer (ms : String → String → Bool) (markers : String → List String)
    (p : String) : update_section ms markers "footer" p = "footer" := rfl

theorem update_section_eq_of_ne (ms : String → String → Bool) (markers : String → List String)
    (c p : String) (h : ¬ c = "footer") :
    update_section ms markers c p
      = ((sections.drop (sections.indexOf c + 1)).find?
          (fun next_sec => (markers next_sec).any (fun marker => ms marker p))).getD c := by
  unfold update_section
  rw [if_neg h]

theorem update_section_cases (ms : String → String → Bool) (markers : String → List String)
    (c p : String) (hc : c ∈ sections) :
    update_section ms markers c p = c
    ∨ (update_section ms markers c p ∈ sections
        ∧ section_rank c < section_rank (update_section ms markers c p)) := by
  have hmem : c = "header" ∨ c = "facts" ∨ c = "considerations" ∨ c = "rulings"
      ∨ c = "footer" := by simpa [sections] using hc
  rcases hmem with rfl | rfl | rfl | rfl | rfl
  · rw [update_section_eq_of_ne ms markers _ p (by decide)]
    have hd : sections.drop (sections.indexOf "header" + 1)
        = ["facts", "considerations", "rulings", "footer"] := rfl
    rw [hd]
    cases hfind : (["facts", "considerations", "rulings", "footer"] : List String).find?
        (fun next_sec => (markers next_sec).any (fun marker => ms marker p)) with
    | none => exact Or.inl rfl
    | some s =>
      have hs := List.mem_of_find?_eq_some hfind
      rw [Option.getD_some]
      simp only [List.mem_cons, List.not_mem_nil, or_false] at hs
      rcases hs with rfl | rfl | rfl | rfl <;> exact Or.inr ⟨by decide, by decide⟩
  · rw [update_section_eq_of_ne ms markers _ p (by decide)]
    have hd : sections.drop (sections.indexOf "facts" + 1)
        = ["considerations", "rulings", "footer"] := rfl
    rw [hd]
    cases hfind : (["considerations", "rulings", "footer"] : List String).find?
        (fun next_sec => (markers next_sec).any (fun marker => ms marker p)) with
    | none => exact Or.inl rfl
    | some s =>
      have hs := List.mem_of_find?_eq_some hfind
      rw [Option.getD_some]
      simp only [List.mem_cons, List.not_mem_nil, or_false] at hs
      rcases hs with rfl | rfl | rfl <;> exact Or.inr ⟨by decide, by decide⟩
  · rw [update_section_eq_of_ne ms markers _ p (by decide)]
    have hd : sections.drop (sections.indexOf "considerations" + 1)
        = ["rulings", "footer"] := rfl
    rw [hd]
    cases hfind : (["rulings", "footer"] : List String).find?
        (fun next_sec => (markers next_sec).any (fun marker => ms marker p)) with
    | none => exact Or.inl rfl
    | some s =>
      have hs := List.mem_of_find?_eq_some hfind
      rw [Option.getD_some]
      simp only [List.mem_cons, List.not_mem_nil, or_false] at hs
      rcases hs with rfl | rfl <;> exact Or.inr ⟨by decide, by decide⟩
  · rw [update_section_eq_of_ne ms markers _ p (by decide)]
    have hd : sections.drop (sections.indexOf "rulings" + 1) = ["footer"] := rfl
    rw [hd]
    cases hfind : (["footer"] : List String).find?
        (fun next_sec => (markers next_sec).any (fun marker => ms marker p)) with
    | none => exact Or.inl rfl
    | some s =>
      have hs := List.mem_of_find?_eq_some hfind
      rw [Option.getD_some]
      simp only [List.mem_cons, List.not_mem_nil, or_false] at hs
      rcases hs with rfl
      exact Or.inr ⟨by decide, by decide⟩
  · exact Or.inl (update_section_footer ms markers p)

theorem update_section_mem (ms : String → String → Bool) (markers : String → List String)
    (c p : String) (hc : c ∈ sections) : update_section ms markers c p ∈ sections := by
  rcases update_section_cases ms markers c p hc with h | h
  · rw [h]; exact hc
  · exact h.1

theorem update_section_rank_le (ms : String → String → Bool) (markers : String → List String)
    (c p : String) (hc : c ∈ sections) :
    section_rank c ≤ section_rank (update_section ms markers c p) := by
  rcases update_section_cases ms markers c p hc with h | h
  · rw [h]
  · exact Nat.le_of_lt h.2

theorem associate_go_footer_fst (ms : String → String → Bool) (markers : String → List String) :
    ∀ (ps : List String) (sd pd : List (String × String)),
      (associate_go ms markers "footer" sd pd ps).1 = "footer"
  | [], sd, pd => rfl
  | p :: rest, sd, pd => by
    simp only [associate_go, update_section_footer]
    exact associate_go_footer_fst ms markers rest _ _

theorem associate_go_footer_pd (ms : String → String → Bool) (markers : String → List String) :
    ∀ (ps : List String) (sd pd : List (String × String)),
      (associate_go ms markers "footer" sd pd ps).2.2
        = pd ++ ps.map (fun p => (p, "footer"))
  | [], sd, pd => by simp [associate_go]
  | p :: rest, sd, pd => by
    simp only [associate_go, update_section_footer]
    rw [associate_go_footer_pd ms markers rest _ _]
    simp

theorem associate_go_fst_mem (ms : String → String → Bool) (markers : String → List String) :
    ∀ (ps : List String) (c : String) (sd pd : List (String × String)), c ∈ sections →
      (associate_go ms markers c sd pd ps).1 ∈ sections
  | [], c, sd, pd, hc => hc
  | p :: rest, c, sd, pd, hc => by
    simp only [associate_go]
    exact associate_go_fst_mem ms markers rest _ _ _ (update_section_mem ms markers c p hc)

theorem chain_tail {α : Type} (R : α → α → Prop) (a : α) :
    ∀ l : List α, List.Chain R a l → List.Chain' R l
  | [], _ => trivial
  | _ :: _, h => (List.chain_cons.mp h).2

theorem associate_go_chain (ms : String → String → Bool) (markers : String → List String) :
    ∀ (ps : List String) (c : String) (sd pd : List (String × String)), c ∈ sections →
      ∃ suffix : List (String × String),
        (associate_go ms markers c sd pd ps).2.2 = pd ++ suffix
        ∧ List.Chain (fun a b => section_rank a ≤ section_rank b) c (suffix.map Prod.snd)
  | [], c, sd, pd, hc => ⟨[], by simp [associate_go], List.Chain.nil⟩
  | p :: rest, c, sd, pd, hc => by
    have hc2 := update_section_mem ms markers c p hc
    obtain ⟨suf2, hsuf2, hchain2⟩ :=
      associate_go_chain ms markers rest (update_section ms markers c p)
        (sd.map (fun kv =>
          if kv.1 = update_section ms markers c p then (kv.1, kv.2 ++ p ++ " ") else kv))
        (pd ++ [(p, update_section ms markers c p)]) hc2
    refine ⟨(p, update_section ms markers c p) :: suf2, ?_, ?_⟩
    · simp only [associate_go]
      rw [hsuf2]
      simp
    · rw [List.map_cons, List.chain_cons]
      exact ⟨update_section_rank_le ms markers c p hc, hchain2⟩

theorem update_section_only_footer (ms : String → String → Bool)
    (markers : String → List String) (p : String)
    (hf : (markers "footer").any (fun marker => ms marker p) = true)
    (ho : ∀ s, s ≠ "footer" → (markers s).any (fun marker => ms marker p) = false) :
    ∀ c ∈ sections, update_section ms markers c p = "footer" := by
  intro c hc
  have hmem : c = "header" ∨ c = "facts" ∨ c = "considerations" ∨ c = "rulings"
      ∨ c = "footer" := by simpa [sections] using hc
  rcases hmem with rfl | rfl | rfl | rfl | rfl
  · rw [update_section_eq_of_ne ms markers _ p (by decide)]
    have hd : sections.drop (sections.indexOf "header" + 1)
        = ["facts", "considerations", "rulings", "footer"] := rfl
    rw [hd, List.find?_cons_of_neg _ (by simp [ho "facts" (by decide)]),
      List.find?_cons_of_neg _ (by simp [ho "considerations" (by decide)]),
      List.find?_cons_of_neg _ (by simp [ho "rulings" (by decide)]),
      List.find?_cons_of_pos _ (by simp [hf])]
    rfl
  · rw [update_section_eq_of_ne ms markers _ p (by decide)]
    have hd : sections.drop (sections.indexOf "facts" + 1)
        = ["considerations", "rulings", "footer"] := rfl
    rw [hd, List.find?_cons_of_neg _ (by simp [ho "considerations" (by decide)]),
      List.find?_cons_of_neg _ (by simp [ho "rulings" (by decide)]),
      List.find?_cons_of_pos _ (by simp [hf])]
    rfl
  · rw [update_section_eq_of_ne ms markers _ p (by decide)]
    have hd : sections.drop (sections.indexOf "considerations" + 1)
        = ["rulings", "footer"] := rfl
    rw [hd, List.find?_cons_of_neg _ (by simp [ho "rulings" (by decide)]),
      List.find?_cons_of_pos _ (by simp [hf])]
    rfl
  · rw [update_section_eq_of_ne ms markers _ p (by decide)]
    have hd : sections.drop (sections.indexOf "rulings" + 1) = ["footer"] := rfl
    rw [hd, List.find?_cons_of_pos _ (by simp [hf])]
    rfl
  · exact update_section_footer ms markers p

theorem associate_go_reaches_footer (ms : String → String → Bool)
    (markers : String → List String) (p : String)
    (hf : (markers "footer").any (fun marker => ms marker p) = true)
    (ho : ∀ s, s ≠ "footer" → (markers s).any (fun marker => ms marker p) = false) :
    ∀ (ps : List String) (c : String) (sd pd : List (String × String)),
      c ∈ sections → p ∈ ps → (associate_go ms markers c sd pd ps).1 = "footer"
  | [], c, sd, pd, hc, hp => absurd hp (List.not_mem_nil p)
  | q :: rest, c, sd, pd, hc, hp => by
    rcases List.mem_cons.mp hp with rfl | hp2
    · have hc2 : update_section ms markers c p = "footer" :=
        update_section_only_footer ms markers p hf ho c hc
      simp only [associate_go, hc2]
      exact associate_go_footer_fst ms markers rest _ _
    · simp only [associate_go]
      exact associate_go_reaches_footer ms markers p hf ho rest _ _ _
        (update_section_mem ms markers c q hc) hp2

/-- Concrete matcher for the C4/C5 concrete instances: a marker matches
a paragraph when it occurs in it as a literal substring (the behaviour
of `re.search` on the literal, regex-free German markers). -/
def litMatch (marker paragraph : String) : Bool := strContains marker paragraph

/-- Concrete marker table for the C4/C5 concrete instances: one literal
marker per section from the German `section_markers` table, with the
concrete date fragment `1. Januar` standing in for the footer's
long-form date pattern (which matches it). -/
def demoMarkers (s : String) : List String :=
  if s = "facts" then ["Sachverhalt:"]
  else if s = "considerations" then ["in Erwägung"]
  else if s = "rulings" then ["Demnach erkennt"]
  else if s = "footer" then ["1. Januar"]
  else []

/-- C4 counterexample: the paragraph
`"Sachverhalt: Lausanne, 1. Januar 2020"` matches a footer marker, but
it also matches the facts marker, which is scanned first; the cursor
moves to `facts` and, the sequence ending there, `associate_sections`
raises the stuck error instead of returning normally — refuting
"if some paragraph matches a footer marker, the function returns
normally". -/
theorem C4_counterexample :
    (demoMarkers "footer").any
        (fun marker => litMatch marker "Sachverhalt: Lausanne, 1. Januar 2020") = true
    ∧ associate_sections litMatch demoMarkers "http://relevancy.bger.ch/x"
        ["Sachverhalt: Lausanne, 1. Januar 2020"]
      = .error (stuck_message "facts" "http://relevancy.bger.ch/x") := by
  exact ⟨by decide, rfl⟩

/-- C4 (amended): if the cursor has not reached `footer` after the last
paragraph, `associate_sections` fails with exactly the stuck message
naming that section and carrying the decision's URL, and it never
returns a section mapping in that case; conversely, if some paragraph
matches a footer marker *and no marker of any other section*, the
function returns normally. -/
theorem C4_section_error_amended :
    (∀ (ms : String → String → Bool) (markers : String → List String)
        (url : String) (ps : List String),
      final_section ms markers ps ≠ "footer" →
        associate_sections ms markers url ps
          = .error (stuck_message (final_section ms markers ps) url))
    ∧ (∀ (ms : String → String → Bool) (markers : String → List String)
        (url : String) (ps : List String)
        (out : List (String × String) × List (String × String)),
      associate_sections ms markers url ps = .ok out →
        final_section ms markers ps = "footer")
    ∧ (∀ (ms : String → String → Bool) (markers : String → List String)
        (url : String) (ps : List String) (p : String),
      p ∈ ps →
      (markers "footer").any (fun marker => ms marker p) = true →
      (∀ s, s ≠ "footer" → (markers s).any (fun marker => ms marker p) = false) →
        ∃ out, associate_sections ms markers url ps = .ok out) := by
  refine ⟨fun ms markers url ps h => ?_, fun ms markers url ps out h => ?_,
    fun ms markers url ps p hp hf ho => ?_⟩
  · unfold final_section at h
    unfold associate_sections
    rw [if_pos h]
    rfl
  · by_cases hfin : final_section ms markers ps ≠ "footer"
    · unfold final_section at hfin
      unfold associate_sections at h
      rw [if_pos hfin] at h
      exact absurd h (by simp)
    · exact not_not.mp hfin
  · have hfin : final_section ms markers ps = "footer" :=
      associate_go_reaches_footer ms markers p hf ho ps "header"
        (sections.map (fun s => (s, ""))) [] (by decide) hp
    unfold final_section at hfin
    refine ⟨((associate_go ms markers "header" (sections.map (fun s => (s, ""))) [] ps).2.1,
      (associate_go ms markers "header" (sections.map (fun s => (s, ""))) [] ps).2.2), ?_⟩
    unfold associate_sections
    rw [if_neg (not_not_intro hfin)]

/-- C4 witness: a one-paragraph sequence whose paragraph matches only the
footer marker returns normally; instantiating the amended theorem's
third part at `"Lausanne, 1. Januar 2020"`. -/
theorem C4_witness :
    ∃ out, associate_sections litMatch demoMarkers "http://relevancy.bger.ch/y"
        ["Lausanne, 1. Januar 2020"] = .ok out := by
  refine C4_section_error_amended.2.2 litMatch demoMarkers "http://relevancy.bger.ch/y"
    ["Lausanne, 1. Januar 2020"] "Lausanne, 1. Januar 2020" (by decide) (by decide) ?_
  intro s hs
  by_cases h1 : s = "facts"
  · subst h1; decide
  · by_cases h2 : s = "considerations"
    · subst h2; decide
    · by_cases h3 : s = "rulings"
      · subst h3; decide
      · have hempty : demoMarkers s = [] := by simp [demoMarkers, h1, h2, h3, hs]
        rw [hempty]
        rfl

/-- The sequence of section labels assigned to the consecutive
paragraphs (the second components of `paragraph_data`). -/
def paragraph_labels (ms : String → String → Bool) (markers : String → List String)
    (paragraphs : List String) : List String :=
  ((associate_go ms markers "header" (sections.map (fun s => (s, ""))) [] paragraphs).2.2).map
    Prod.snd

/-- C5: the state machine is forward-only — at `footer` the cursor never
moves again (and every remaining paragraph is labelled `footer`);
`update_section` either keeps the cursor or moves it to a section of
strictly larger rank in the fixed order header < facts < considerations
< rulings < footer; consequently the labels assigned to consecutive
paragraphs are monotonically non-decreasing in that order. -/
theorem C5_forward_only :
    (∀ (ms : String → String → Bool) (markers : String → List String) (p : String),
      update_section ms markers "footer" p = "footer")
    ∧ (∀ (ms : String → String → Bool) (markers : String → List String) (c p : String),
      c ∈ sections →
        section_rank c ≤ section_rank (update_section ms markers c p)
        ∧ (update_section ms markers c p ≠ c →
            section_rank c < section_rank (update_section ms markers c p)))
    ∧ (∀ (ms : String → String → Bool) (markers : String → List String) (ps : List String),
      List.Chain' (fun a b => section_rank a ≤ section_rank b) (paragraph_labels ms markers ps))
    ∧ (∀ (ms : String → String → Bool) (markers : String → List String)
        (sd pd : List (String × String)) (ps : List String),
      (associate_go ms markers "footer" sd pd ps).1 = "footer"
      ∧ (associate_go ms markers "footer" sd pd ps).2.2
          = pd ++ ps.map (fun p => (p, "footer"))) := by
  refine ⟨update_section_footer, fun ms markers c p hc => ⟨?_, fun hne => ?_⟩,
    fun ms markers ps => ?_,
    fun ms markers sd pd ps =>
      ⟨associate_go_footer_fst ms markers ps sd pd, associate_go_footer_pd ms markers ps sd pd⟩⟩
  · exact update_section_rank_le ms markers c p hc
  · rcases update_section_cases ms markers c p hc with h | h
    · exact absurd h hne
    · exact h.2
  · obtain ⟨suffix, hsuf, hchain⟩ :=
      associate_go_chain ms markers ps "header" (sections.map (fun s => (s, ""))) [] (by decide)
    have hlab : paragraph_labels ms markers ps = suffix.map Prod.snd := by
      rw [paragraph_labels, hsuf]
      simp
    rw [hlab]
    exact chain_tail _ "header" _ hchain

/-- C5 witness: instantiating the forward-only statement at the cursor
`facts` and a concrete paragraph, and checking one concrete forward
transition. -/
theorem C5_witness :
    section_rank "facts" ≤ section_rank (update_section litMatch demoMarkers "facts" "xyz")
    ∧ update_section litMatch demoMarkers "header" "Sachverhalt: A" = "facts" := by
  have h := C5_forward_only.2.1 litMatch demoMarkers "facts" "xyz" (by decide)
  exact ⟨h.1, by decide⟩

/-! ### C3 and C10: `DatasetCreator.get_file_number`
(dataset_creator.py lines 242-268).

The `RulingCitation` data class lives in
`scrc/data_classes/ruling_citation.py`, which is not under src/, so it
is modelled from the spec; `get_file_number` itself is translated from
the source. -/

/-- Modelled from the spec: the `RulingCitation` value type (spec §3 and
§4.3) — `{year, volume, page_number}` parsed from a citation string in
the canonical "BGE {year} {volume} {page}" form; the language argument
is always `'de'` at the call sites modelled here and is dropped.
Equality is over the canonical rendering, i.e. over these fields. -/
structure RulingCitation where
  year : Int
  volume : String
  page_number : Int
deriving DecidableEq, Repr

/-- Modelled from the spec: `cit_string()` (and `str()`) render the
canonical "BGE {year} {volume} {page}" form. -/
def RulingCitation.cit_string (c : RulingCitation) : String :=
  "BGE " ++ toString c.year ++ " " ++ c.volume ++ " " ++ toString c.page_number

/-- Split a character list into maximal whitespace-free tokens
(space-separated words, empty tokens discarded); `tok` accumulates the
current word reversed. -/
def tokenizeGo : List Char → List Char → List String
  | tok, [] => if tok.isEmpty then [] else [String.mk tok.reverse]
  | tok, c :: rest =>
    if c = ' ' then
      if tok.isEmpty then tokenizeGo [] rest
      else String.mk tok.reverse :: tokenizeGo [] rest
    else tokenizeGo (c :: tok) rest

/-- The whitespace tokens of a string. -/
def tokenize (s : String) : List String := tokenizeGo [] s.data

/-- Parse an optionally `-`-signed decimal numeral, accumulating into
`acc`; any non-digit character fails. -/
def digitsToNat : List Char → Nat → Option Nat
  | [], acc => some acc
  | c :: rest, acc =>
    if c.isDigit then digitsToNat rest (acc * 10 + (c.toNat - '0'.toNat)) else none

/-- Parse an integer token (used for the year and the page number). -/
def parseIntStr (s : String) : Option Int :=
  match s.data with
  | [] => none
  | '-' :: rest => if rest.isEmpty then none else (digitsToNat rest 0).map (fun n => -(n : Int))
  | cs => (digitsToNat cs 0).map (fun n => (n : Int))

/-- Modelled from the spec: parsing a citation string (spec §4.3) — the
whitespace tokens, an optional leading "BGE", then year, volume and page
number; anything else raises `ValueError`, modelled as `none`. -/
def RulingCitation.parse (text : String) : Option RulingCitation :=
  match (match tokenize text with
         | "BGE" :: rest => rest
         | ts => ts) with
  | [y, v, p] =>
    match parseIntStr y, parseIntStr p with
    | some yi, some pi => some ⟨yi, v, pi⟩
    | _, _ => none
  | _ => none

/-- The `for match in self.available_bges` loop of `get_file_number`
(dataset_creator.py lines 258-263): starting from the sentinel
`new_page_number = -1` in `acc`, for every known ruling whose text
contains the substring "BGE {year} {volume}", parse it and move `acc` up
to its page number whenever `acc < page ≤ page_number`; an unparseable
matching entry raises, modelled as `none`. -/
def best_page (year : Int) (volume : String) (page_number : Int) :
    List String → Int → Option Int
  | [], acc => some acc
  | m :: rest, acc =>
    if strContains ("BGE " ++ toString year ++ " " ++ volume) m then
      match RulingCitation.parse m with
      | some tmp =>
        best_page year volume page_number rest
          (if acc < tmp.page_number ∧ tmp.page_number ≤ page_number
           then tmp.page_number else acc)
      | none => none
    else best_page year volume page_number rest acc

/-- `DatasetCreator.get_file_number` (dataset_creator.py lines 242-268):
parse the citation (always as German); if its canonical form is a known
ruling, return it; otherwise compute the best known page number
(`best_page`, sentinel -1) and, when `page_number - new_page_number < 20`,
return the canonical string rebuilt from the query's year and volume and
the found page number, else the query's own canonical form.  (The source
rebuilds the result by formatting `f"{year} {volume} {new_page_number}"`
and re-parsing it, which round-trips to the direct construction used
here.) -/
def get_file_number (available_bges : List String) (citation : String) : Option String := do
  let found_citation ← RulingCitation.parse citation
  if found_citation.cit_string ∈ available_bges then
    return found_citation.cit_string
  else
    let new_page_number ← best_page found_citation.year found_citation.volume
      found_citation.page_number available_bges (-1)
    if found_citation.page_number - new_page_number < 20 then
      return (RulingCitation.mk found_citation.year found_citation.volume
        new_page_number).cit_string
    else
      return found_citation.cit_string

/-- Specification-level candidate pages: the parsed page numbers, at most
`page_number`, of the known rulings whose text contains
"BGE {year} {volume}" as a substring, in order. -/
def matching_pages (year : Int) (volume : String) (page_number : Int) :
    List String → List Int
  | [] => []
  | m :: rest =>
    match (if strContains ("BGE " ++ toString year ++ " " ++ volume) m
           then RulingCitation.parse m else none) with
    | some tmp =>
      if tmp.page_number ≤ page_number
      then tmp.page_number :: matching_pages year volume page_number rest
      else matching_pages year volume page_number rest
    | none => matching_pages year volume page_number rest

theorem best_page_eq_foldl (year : Int) (volume : String) (page_number : Int) :
    ∀ (bges : List String) (acc b : Int),
      best_page year volume page_number bges acc = some b →
      b = (matching_pages year volume page_number bges).foldl max acc
  | [], acc, b => by
    intro h
    simp only [best_page, Option.some_inj] at h
    simp [matching_pages, h]
  | m :: rest, acc, b => by
    intro h
    by_cases hstr : strContains ("BGE " ++ toString year ++ " " ++ volume) m = true
    · rw [best_page, if_pos hstr] at h
      cases hparse : RulingCitation.parse m with
      | none => simp [hparse] at h
      | some tmp =>
        simp only [hparse] at h
        by_cases hle : tmp.page_number ≤ page_number
        · have hacc : (if acc < tmp.page_number ∧ tmp.page_number ≤ page_number
              then tmp.page_number else acc) = max acc tmp.page_number := by
            by_cases hlt : acc < tmp.page_number
            · rw [if_pos ⟨hlt, hle⟩]; omega
            · rw [if_neg (by tauto)]; omega
          rw [hacc] at h
          have ih := best_page_eq_foldl year volume page_number rest _ _ h
          simp only [matching_pages, hstr, if_true, hparse, hle, List.foldl_cons]
          exact ih
        · have hacc : (if acc < tmp.page_number ∧ tmp.page_number ≤ page_number
              then tmp.page_number else acc) = acc := by
            rw [if_neg (by tauto)]
          rw [hacc] at h
          have ih := best_page_eq_foldl year volume page_number rest _ _ h
          simp only [matching_pages, hstr, if_true, hparse, hle, if_false]
          exact ih
    · rw [best_page, if_neg hstr] at h
      have ih := best_page_eq_foldl year volume page_number rest _ _ h
      rw [matching_pages]
      simp only [hstr, if_neg, Bool.false_eq_true, reduceIte]
      exact ih

theorem foldl_max_facts : ∀ (l : List Int) (acc : Int),
    acc ≤ l.foldl max acc
    ∧ (∀ x ∈ l, x ≤ l.foldl max acc)
    ∧ (l.foldl max acc = acc ∨ l.foldl max acc ∈ l)
  | [], acc => by simp
  | x :: xs, acc => by
    simp only [List.foldl_cons]
    have ih := foldl_max_facts xs (max acc x)
    refine ⟨le_trans (le_max_left acc x) ih.1, ?_, ?_⟩
    · intro y hy
      rcases List.mem_cons.mp hy with rfl | hy2
      · exact le_trans (le_max_right acc y) ih.1
      · exact ih.2.1 y hy2
    · rcases ih.2.2 with heq | hmem
      · rcases max_choice acc x with hm | hm
        · exact Or.inl (heq.trans hm)
        · exact Or.inr (by rw [heq, hm]; exact List.mem_cons_self x xs)
      · exact Or.inr (List.mem_cons_of_mem x hmem)

/-- C3 counterexample: with known rulings {"BGE 2000 I 3", "BGE 2000 II 7"}
and query "BGE 2000 I 8", the only known citation with the query's year
2000 and volume I is "BGE 2000 I 3" (page 3 ≤ 8, gap 5 < 20), so the
claim prescribes "BGE 2000 I 3"; the code's substring test
`"BGE 2000 I" in match` also matches the volume-II entry, takes its
larger page 7 and returns "BGE 2000 I 7". -/
theorem C3_counterexample :
    get_file_number ["BGE 2000 I 3", "BGE 2000 II 7"] "BGE 2000 I 8" = some "BGE 2000 I 7"
    ∧ (["BGE 2000 I 3", "BGE 2000 II 7"].filterMap RulingCitation.parse).filter
        (fun t => t.year == 2000 && t.volume == "I" && decide (t.page_number ≤ 8))
      = [⟨2000, "I", 3⟩]
    ∧ ("BGE 2000 I 7" : String) ≠ "BGE 2000 I 3" := by
  exact ⟨by decide, by decide, by decide⟩

/-- C3 (amended): when the parsed citation is not a known ruling, the
code searches the known rulings whose *text contains the substring*
"BGE {year} {volume}" (which can also match entries of a longer volume
name), takes the largest such parsed page number not exceeding the
target (sentinel -1 when there is none), and if the gap is smaller than
20 returns the canonical string rebuilt from the query's own year and
volume and the found page; otherwise it returns the query's canonical
form unchanged.  When every substring-matching entry has the query's
year and volume this coincides with the claim, and the claim's two
concrete examples hold as stated. -/
theorem C3_get_file_number_amended :
    (∀ (bges : List String) (cit : String) (c : RulingCitation) (b : Int),
      RulingCitation.parse cit = some c →
      c.cit_string ∉ bges →
      best_page c.year c.volume c.page_number bges (-1) = some b →
      ((b = -1 ∨ b ∈ matching_pages c.year c.volume c.page_number bges)
        ∧ (∀ q ∈ matching_pages c.year c.volume c.page_number bges, q ≤ b)
        ∧ (-1 : Int) ≤ b)
      ∧ get_file_number bges cit
          = some (if c.page_number - b < 20
              then (RulingCitation.mk c.year c.volume b).cit_string
              else c.cit_string))
    ∧ get_file_number ["BGE 2000 II 5", "BGE 2000 II 10"] "BGE 2000 II 8"
        = some "BGE 2000 II 5"
    ∧ get_file_number ["BGE 2000 II 5", "BGE 2000 II 10"] "BGE 2000 II 200"
        = some "BGE 2000 II 200" := by
  refine ⟨fun bges cit c b hparse hmem hbest => ⟨?_, ?_⟩, by decide, by decide⟩
  · have hfold := best_page_eq_foldl c.year c.volume c.page_number bges (-1) b hbest
    have hfacts := foldl_max_facts (matching_pages c.year c.volume c.page_number bges) (-1)
    refine ⟨?_, ?_, ?_⟩
    · rw [hfold]
      exact hfacts.2.2
    · intro q hq
      rw [hfold]
      exact hfacts.2.1 q hq
    · rw [hfold]
      exact hfacts.1
  · by_cases hgap : c.page_number - b < 20
    · simp [get_file_number, hparse, hmem, hbest, hgap]
    · simp [get_file_number, hparse, hmem, hbest, hgap]

/-- C3 witness: the amended theorem instantiated at known rulings
{"BGE 2000 II 5", "BGE 2000 II 10"} and query "BGE 2000 II 8" with best
page 5: 5 is a candidate page, every candidate page is at most 5, and
the result is the rebuilt "BGE 2000 II 5" since the gap 3 < 20. -/
theorem C3_witness :
    ((5 : Int) = -1 ∨ (5 : Int) ∈ matching_pages 2000 "II" 8 ["BGE 2000 II 5", "BGE 2000 II 10"])
    ∧ (∀ q ∈ matching_pages 2000 "II" 8 ["BGE 2000 II 5", "BGE 2000 II 10"], q ≤ 5)
    ∧ get_file_number ["BGE 2000 II 5", "BGE 2000 II 10"] "BGE 2000 II 8"
        = some (if (8 : Int) - 5 < 20 then (RulingCitation.mk 2000 "II" 5).cit_string
            else (RulingCitation.mk 2000 "II" 8).cit_string) := by
  have h := C3_get_file_number_amended.1 ["BGE 2000 II 5", "BGE 2000 II 10"]
    "BGE 2000 II 8" ⟨2000, "II", 8⟩ 5 (by decide) (by decide) (by decide)
  exact ⟨h.1.1, h.1.2.1, h.2⟩

/-- C10: querying "BGE 2000 II 8" against a known-ruling universe whose
only entry "BGE 1999 III 22" does not contain "BGE 2000 II" leaves the
best page at the sentinel -1; the gap check `8 - (-1) < 20` passes and
the function returns "BGE 2000 II -1" — a citation with a negative page
number that is neither the input citation nor a member of the known
universe. -/
theorem C10_sentinel_citation :
    get_file_number ["BGE 1999 III 22"] "BGE 2000 II 8" = some "BGE 2000 II -1"
    ∧ (["BGE 1999 III 22"] : List String).all (fun m => !(strContains "BGE 2000 II" m)) = true
    ∧ RulingCitation.parse "BGE 2000 II 8" = some ⟨2000, "II", 8⟩
    ∧ ((8 : Int) ≤ 18)
    ∧ ("BGE 2000 II -1" : String) ≠ "BGE 2000 II 8"
    ∧ ("BGE 2000 II -1" : String) ∉ (["BGE 1999 III 22"] : List String) := by
  exact ⟨by decide, by decide, by decide, by decide, by decide, by decide⟩
